import Mathlib

/-!
Verification of the order-management service core
(`application/services/order_service.go`, `application/repositories/order_repository.go`).

The Go code is shallowly embedded as pure Lean functions:

* The relational store (tables `orders`, `order_items`, and their SERIAL id
  sequences) is a `Store` value.  A transaction is modelled by threading a
  private copy of the store through the statements of the operation and
  publishing it on commit; on any error the original store is returned,
  which is exactly the effect of the `defer tx.Rollback` in the source.
* Every blocking database call (begin / statement / commit) may fail; a
  failure is `canceled` (the context was cancelled by the caller),
  `deadlineExceeded` (the context timed out), or `other` (any driver or
  SQL failure).  The outcome of each call site is prescribed by an `Env`
  value, mirroring that pgx aborts an in-flight call with `context.Canceled`
  or `context.DeadlineExceeded` when the shared context ends.
* Go error values are the inductive `GoError`.  `fmt.Errorf` with `%w`
  becomes the `wrapped` constructor, `errors.New` / `fmt.Errorf` without
  `%w` becomes `message`, `pgx.ErrNoRows` becomes `noRows`, and
  `context.Canceled` / `context.DeadlineExceeded` are their own
  constructors.  `errors.Is(err, context.Canceled)` is `GoError.kind`,
  which looks through `wrapped` exactly as `errors.Is` unwraps `%w` chains.
* Go `float64` money amounts are modelled as `ℚ`; Go `int` as `Int`;
  `time.Time` values as `Int` (the claims never depend on real time).

Struct and field names follow the Go source (`models/order_model.go`,
`OrderWithItems` as used by the repository and the `domain` interfaces).
-/

namespace OrderMgmt

/-- Outcome of one blocking database call: success (`none` in an `Option
DbFail`) or one of the three end conditions distinguished by the source. -/
inductive DbFail where
  | canceled
  | deadlineExceeded
  | other (msg : String)
deriving DecidableEq

/-- Go error values as produced by the repository and service layers. -/
inductive GoError where
  | canceled
  | deadlineExceeded
  | noRows
  | message (msg : String)
  | wrapped (op : String) (cause : GoError)
deriving DecidableEq

/-- The three externally distinguished end conditions of an operation. -/
inductive EndKind where
  | canceled
  | deadlineExceeded
  | other
deriving DecidableEq

def DbFail.kind : DbFail → EndKind
  | .canceled => .canceled
  | .deadlineExceeded => .deadlineExceeded
  | .other _ => .other

/-- Classification of a Go error as done by `errors.Is(err, context.Canceled)`
and `errors.Is(err, context.DeadlineExceeded)`: `%w`-wrapping is looked
through, every other error is `other`. -/
def GoError.kind : GoError → EndKind
  | .canceled => .canceled
  | .deadlineExceeded => .deadlineExceeded
  | .wrapped _ cause => cause.kind
  | .noRows => .other
  | .message _ => .other

/-- The raw error a failed call hands to the repository. -/
def DbFail.toError : DbFail → GoError
  | .canceled => GoError.canceled
  | .deadlineExceeded => GoError.deadlineExceeded
  | .other msg => GoError.message msg

/-- The error the repository returns for a failed call: the three-branch
pattern repeated at every call site of `order_repository.go` — cancellation
and deadline errors are returned verbatim, anything else is wrapped with
the operation name via `fmt.Errorf("...: %w", err)`. -/
def repoWrap (op : String) (f : DbFail) : GoError :=
  match f with
  | .canceled => GoError.canceled
  | .deadlineExceeded => GoError.deadlineExceeded
  | .other msg => GoError.wrapped op (GoError.message msg)

/-- `models.StatusPending`. -/
def StatusPending : String := "pending"

/-- `models.Order` (`models/order_model.go`). -/
structure Order where
  ID : Int
  CustomerName : String
  TotalAmount : ℚ
  Status : String
  CreatedAt : Int
  UpdatedAt : Int
deriving DecidableEq

/-- `models.OrderItem`. -/
structure OrderItem where
  ID : Int
  OrderID : Int
  ProductName : String
  Quantity : Int
  Price : ℚ
  CreatedAt : Int
  UpdatedAt : Int
deriving DecidableEq

/-- `models.OrderWithItems`: the read aggregate assembled by the repository
(an order plus its item rows).  The struct itself is referenced but not
present under `src/`; its shape (`Order` plus `Items`) is fixed by every
use site in the repository and by the spec. -/
structure OrderWithItems where
  Order : Order
  Items : List OrderItem
deriving DecidableEq

/-- `models.CreateOrderInput`: note that the caller may supply a
`TotalAmount` and a `Status`; the service is expected to ignore both. -/
structure CreateOrderInput where
  CustomerName : String
  TotalAmount : ℚ
  Status : String
  Items : List OrderItem
deriving DecidableEq

/-- `models.UpdateOrderInput`. -/
structure UpdateOrderInput where
  ID : Int
  CustomerName : String
  TotalAmount : ℚ
  Status : String
deriving DecidableEq

/-- `models.ListInput`. -/
structure ListInput where
  Page : Int
  Size : Int
deriving DecidableEq

/-- `models.ListPaginatedOrders` as built by `ListOrders` (data is the page
of aggregates). -/
structure ListPaginatedOrders where
  Data : List OrderWithItems
  Total : Int
  Page : Int
  Size : Int
  TotalPages : Int
deriving DecidableEq

/-- A row of the `orders` table. -/
structure OrderRow where
  id : Int
  customer_name : String
  total_amount : ℚ
  status : String
  created_at : Int
  updated_at : Int
deriving DecidableEq

/-- A row of the `order_items` table. -/
structure ItemRow where
  id : Int
  order_id : Int
  product_name : String
  quantity : Int
  price : ℚ
  created_at : Int
  updated_at : Int
deriving DecidableEq

/-- The committed state of the relational store: both tables plus the two
SERIAL id sequences. -/
structure Store where
  orders : List OrderRow
  items : List ItemRow
  nextOrderId : Int
  nextItemId : Int
deriving DecidableEq

/-- Outcomes of the blocking calls of one write transaction: `beginTx` for
`db.Begin`, `stmt i` for the i-th statement executed inside the
transaction, `commit` for `tx.Commit`.  A `some` outcome is the failure
pgx reports for that call (in particular, a context that is already
cancelled or expires during the call makes the call return `canceled` or
`deadlineExceeded`). -/
structure Env where
  beginTx : Option DbFail
  stmt : Nat → Option DbFail
  commit : Option DbFail

/-- An `Env` in which every call succeeds. -/
def okEnv : Env := { beginTx := none, stmt := fun _ => none, commit := none }

/-- Outcomes of the two read queries of `GetOrderById`. -/
structure ReadEnv where
  q1 : Option DbFail
  q2 : Option DbFail
deriving DecidableEq

def okReadEnv : ReadEnv := { q1 := none, q2 := none }

/-- The `INSERT INTO orders ... RETURNING id` row: the columns come from the
argument order, the id from the store sequence. -/
def mkOrderRow (id : Int) (o : Order) : OrderRow :=
  { id := id, customer_name := o.CustomerName, total_amount := o.TotalAmount,
    status := o.Status, created_at := o.CreatedAt, updated_at := o.UpdatedAt }

/-- The `INSERT INTO order_items ...` row: `order_id` is the identifier the
repository captured from the order insert, never the `OrderID` (or `ID`)
field of the item value. -/
def mkItemRow (id oid : Int) (it : OrderItem) : ItemRow :=
  { id := id, order_id := oid, product_name := it.ProductName,
    quantity := it.Quantity, price := it.Price,
    created_at := it.CreatedAt, updated_at := it.UpdatedAt }

/-- The item rows a successful run of the insert loop adds, with ids drawn
from the sequence starting at `nextId`, all referencing `oid`. -/
def mkItemRows (nextId oid : Int) : List OrderItem → List ItemRow
  | [] => []
  | it :: rest => mkItemRow nextId oid it :: mkItemRows (nextId + 1) oid rest

/-- The item-insert loop of `CreateOrder` (`order_repository.go`): statement
`i + 1` of the transaction inserts item `i`; the first failing insert
aborts the loop with the repository error for that call. -/
def insertItems (env : Env) (oid : Int) : Store → List OrderItem → Nat → Except GoError Store
  | tx, [], _ => Except.ok tx
  | tx, it :: rest, i =>
    match env.stmt (i + 1) with
    | some f => Except.error (repoWrap ("failed to insert order item") f)
    | none =>
      insertItems env oid
        { tx with items := tx.items ++ [mkItemRow tx.nextItemId oid it],
                  nextItemId := tx.nextItemId + 1 }
        rest (i + 1)

/-- `orderRepository.CreateOrder` (`order_repository.go`): begin, insert the
order capturing the generated id, insert every item with that id, commit.
On any failure the deferred rollback discards the transaction and the
committed store is unchanged; the function returns only an error value. -/
def createOrder (env : Env) (s : Store) (order : Order) (items : List OrderItem) :
    Store × Option GoError :=
  match env.beginTx with
  | some f => (s, some (repoWrap ("failed to begin transaction") f))
  | none =>
    match env.stmt 0 with
    | some f => (s, some (repoWrap ("failed to insert order") f))
    | none =>
      match insertItems env s.nextOrderId
          { s with orders := s.orders ++ [mkOrderRow s.nextOrderId order],
                   nextOrderId := s.nextOrderId + 1 } items 0 with
      | Except.error e => (s, some e)
      | Except.ok tx2 =>
        match env.commit with
        | some f => (s, some (repoWrap ("failed to commit transaction") f))
        | none => (tx2, none)

/-- The error of the first failing call of a `CreateOrder` transaction with
`numItems` items, in program order (begin, order insert, item inserts,
commit); `none` when every call succeeds. -/
def firstItemError (env : Env) : Nat → Nat → Option GoError
  | 0, _ => none
  | n + 1, i =>
    match env.stmt (i + 1) with
    | some f => some (repoWrap ("failed to insert order item") f)
    | none => firstItemError env n (i + 1)

def createFirstError (env : Env) (numItems : Nat) : Option GoError :=
  match env.beginTx with
  | some f => some (repoWrap ("failed to begin transaction") f)
  | none =>
    match env.stmt 0 with
    | some f => some (repoWrap ("failed to insert order") f)
    | none =>
      match firstItemError env numItems 0 with
      | some e => some e
      | none =>
        match env.commit with
        | some f => some (repoWrap ("failed to commit transaction") f)
        | none => none

def rowToOrder (r : OrderRow) : Order :=
  { ID := r.id, CustomerName := r.customer_name, TotalAmount := r.total_amount,
    Status := r.status, CreatedAt := r.created_at, UpdatedAt := r.updated_at }

/-- Scanning an `order_items` row into a `models.OrderItem`. -/
def rowToItem (r : ItemRow) : OrderItem :=
  { ID := r.id, OrderID := r.order_id, ProductName := r.product_name,
    Quantity := r.quantity, Price := r.price,
    CreatedAt := r.created_at, UpdatedAt := r.updated_at }

/-- The Go zero value of `models.OrderWithItems`. -/
def zeroOrder : Order :=
  { ID := 0, CustomerName := "", TotalAmount := 0, Status := "",
    CreatedAt := 0, UpdatedAt := 0 }

def zeroOrderWithItems : OrderWithItems := { Order := zeroOrder, Items := [] }

/-- `orderRepository.GetOrderById`: one query for the order row (a missing
row makes `Scan` report `pgx.ErrNoRows`, which the source returns
verbatim), then one query for the item rows of that id.  A failed first
query is returned verbatim; a failed items query is returned verbatim when
cancelled or timed out and wrapped otherwise. -/
def getOrderById (env : ReadEnv) (s : Store) (id : Int) :
    OrderWithItems × Option GoError :=
  match env.q1 with
  | some f => (zeroOrderWithItems, some f.toError)
  | none =>
    match s.orders.find? (fun r => decide (r.id = id)) with
    | none => (zeroOrderWithItems, some GoError.noRows)
    | some row =>
      match env.q2 with
      | some DbFail.canceled => (zeroOrderWithItems, some GoError.canceled)
      | some DbFail.deadlineExceeded => (zeroOrderWithItems, some GoError.deadlineExceeded)
      | some (DbFail.other msg) =>
          (zeroOrderWithItems,
           some (GoError.wrapped ("failed to fetch order items") (GoError.message msg)))
      | none =>
          ({ Order := rowToOrder row,
             Items := (s.items.filter (fun r2 => decide (r2.order_id = id))).map rowToItem },
           none)

/-- `orderRepository.UpdateOrder`: one transaction running
`UPDATE orders SET status = $1, updated_at = $2 WHERE id = $3`.  Zero
affected rows yield the not-found error and the deferred rollback; commit
otherwise. -/
def updateOrder (env : Env) (s : Store) (order : Order) : Store × Option GoError :=
  match env.beginTx with
  | some f => (s, some (repoWrap ("failed to begin transaction") f))
  | none =>
    match env.stmt 0 with
    | some f => (s, some (repoWrap ("failed to update order") f))
    | none =>
      if (s.orders.filter (fun r => decide (r.id = order.ID))).length = 0 then
        (s, some (GoError.message ("order with ID " ++ toString order.ID ++ " not found")))
      else
        match env.commit with
        | some f => (s, some (repoWrap ("failed to commit transaction") f))
        | none =>
          ({ s with orders := s.orders.map (fun r =>
              if r.id = order.ID then
                { r with status := order.Status, updated_at := order.UpdatedAt }
              else r) }, none)

/-- `orderRepository.DeleteOrder`: one transaction deleting the item rows of
the id first (statement 0), then the order row (statement 1).  Zero
affected rows from the order delete yield the not-found error, and the
deferred rollback undoes the already-executed item delete; commit
otherwise. -/
def deleteOrder (env : Env) (s : Store) (id : Int) : Store × Option GoError :=
  match env.beginTx with
  | some f => (s, some (repoWrap ("failed to begin transaction") f))
  | none =>
    match env.stmt 0 with
    | some f => (s, some (repoWrap ("failed to delete order items") f))
    | none =>
      match env.stmt 1 with
      | some f => (s, some (repoWrap ("failed to delete order") f))
      | none =>
        if (s.orders.filter (fun r => decide (r.id = id))).length = 0 then
          (s, some (GoError.message ("order with ID " ++ toString id ++ " not found")))
        else
          match env.commit with
          | some f => (s, some (repoWrap ("failed to commit transaction") f))
          | none =>
            ({ s with items := s.items.filter (fun it => decide (it.order_id ≠ id)),
                      orders := s.orders.filter (fun r => decide (r.id ≠ id)) }, none)

/-- Page normalization of `ListOrders`: `if input.Page < 1 { input.Page = 1 }`. -/
def normPage (p : Int) : Int := if p < 1 then 1 else p

/-- Size normalization of `ListOrders`: `if input.Size < 1 { input.Size = 10 }`. -/
def normSize (sz : Int) : Int := if sz < 1 then 10 else sz

/-- Stable insertion into a list sorted by `created_at` descending. -/
def sortedInsertDesc (r : OrderRow) : List OrderRow → List OrderRow
  | [] => [r]
  | x :: xs => if x.created_at < r.created_at then r :: x :: xs else x :: sortedInsertDesc r xs

/-- Stable sort by `created_at` descending (structural recursion so that
concrete stores evaluate). -/
def sortByCreatedAtDesc : List OrderRow → List OrderRow
  | [] => []
  | x :: xs => sortedInsertDesc x (sortByCreatedAtDesc xs)

/-- The order rows in the sequence the first `ListOrders` query returns
them: `ORDER BY created_at DESC`. -/
def listOrdersSorted (s : Store) : List OrderRow :=
  sortByCreatedAtDesc s.orders

/-- The page window of the first query: `LIMIT size OFFSET (page-1)*size`. -/
def listPageRows (s : Store) (input : ListInput) : List OrderRow :=
  ((listOrdersSorted s).drop ((normPage input.Page - 1) * normSize input.Size).toNat).take
    (normSize input.Size).toNat

/-- `orderRepository.ListOrders`.  The first query yields the page rows,
each carrying the window count `COUNT(*) OVER()` — the number of all order
rows.  `total` is read from the scanned rows, so when the page is empty
(`len(orderIDs) == 0`) the source returns immediately with `Total = 0`
and `TotalPages = 0` and never runs the items query.  Otherwise the items
query fetches every item row whose `order_id` is in the page id set and
the rows are distributed by id; since ids are primary keys the id-keyed
map assembly equals the per-order filter below. -/
def listOrders (s : Store) (input : ListInput) : ListPaginatedOrders :=
  if listPageRows s input = [] then
    { Data := [], Total := 0, Page := normPage input.Page,
      Size := normSize input.Size, TotalPages := 0 }
  else
    { Data := (listPageRows s input).map (fun r =>
        { Order := rowToOrder r,
          Items := (s.items.filter (fun r2 => decide (r2.order_id = r.id))).map rowToItem }),
      Total := ((listOrdersSorted s).length : Int),
      Page := normPage input.Page, Size := normSize input.Size,
      TotalPages := (((listOrdersSorted s).length : Int) + normSize input.Size - 1) /
        normSize input.Size }

/-- The static state of the request context as the service observes it.
The service checks it via `select { case <-ctx.Done(): ... }`. -/
inductive CtxState where
  | ok
  | canceled
  | deadlineExceeded
deriving DecidableEq

/-- `ctx.Err()`. -/
def CtxState.errValue : CtxState → Option GoError
  | .ok => none
  | .canceled => some GoError.canceled
  | .deadlineExceeded => some GoError.deadlineExceeded

/-- The item the service copies out of a `CreateOrderInput` item
(`order_service.go`): only product name, quantity and price survive; the
caller-supplied `ID`, `OrderID` and timestamps are dropped (zero values). -/
def cleanInputItem (v : OrderItem) : OrderItem :=
  { ID := 0, OrderID := 0, ProductName := v.ProductName, Quantity := v.Quantity,
    Price := v.Price, CreatedAt := 0, UpdatedAt := 0 }

/-- `Σ price * quantity` over a list of input items. -/
def inputTotal (items : List OrderItem) : ℚ :=
  (items.map (fun v => v.Price * (v.Quantity : ℚ))).sum

/-- The validation-and-build loop of `OrderService.CreateOrder`: walks the
input items, rejecting the first one with `Quantity <= 0` or `Price < 0`,
and otherwise accumulates the copied items and the running total. -/
def processItems : List OrderItem → Except GoError (List OrderItem × ℚ)
  | [] => Except.ok ([], 0)
  | v :: rest =>
    if v.Quantity ≤ 0 then Except.error (GoError.message ("item quantity must be greater than 0"))
    else if v.Price < 0 then Except.error (GoError.message ("item price cannot be negative"))
    else
      match processItems rest with
      | Except.error e => Except.error e
      | Except.ok (its, t) => Except.ok (cleanInputItem v :: its, v.Price * (v.Quantity : ℚ) + t)

/-- The pure part of `OrderService.CreateOrder`: validation plus the
construction of the order and the item list handed to the repository.
An `Except.ok` result is exactly the pair the repository receives; an
`Except.error` result is returned to the caller without any repository
call.  Note the constructed order takes only `CustomerName` from the
input, sets `Status` to `models.StatusPending`, and computes
`TotalAmount` from the items; `input.TotalAmount` and `input.Status` are
never read. -/
def serviceCreateOrder (input : CreateOrderInput) : Except GoError (Order × List OrderItem) :=
  if input.CustomerName = "" then Except.error (GoError.message ("customer name is required"))
  else if input.Items.length = 0 then
    Except.error (GoError.message ("order must have at least one item"))
  else
    match processItems input.Items with
    | Except.error e => Except.error e
    | Except.ok (its, total) =>
      Except.ok ({ ID := 0, CustomerName := input.CustomerName, TotalAmount := total,
                   Status := StatusPending, CreatedAt := 0, UpdatedAt := 0 }, its)

/-- `OrderService.CreateOrder` end to end against the store: on a
validation error the repository is never called and the store is
untouched; otherwise the constructed order and items are handed to
`Repository.CreateOrder`, whose error (if any) is returned unchanged. -/
def serviceCreateOrderFull (env : Env) (s : Store) (input : CreateOrderInput) :
    Store × Option GoError :=
  match serviceCreateOrder input with
  | Except.error e => (s, some e)
  | Except.ok (order, its) => createOrder env s order its

/-- `OrderService.GetOrderById` as a function of the repository result:
two early `ctx.Done()` checks, the `id <= 0` validation, pass-through of
any repository error (the cancellation / deadline / other branches of the
source each return `err` unchanged), and the zero-value sentinel
normalization `if order.ID == 0 { return ..., errors.New("order not found") }`. -/
def serviceGetOrderById (ctx : CtxState) (id : Int)
    (repoRes : OrderWithItems × Option GoError) : OrderWithItems × Option GoError :=
  match ctx.errValue with
  | some e => (zeroOrderWithItems, some e)
  | none =>
    if id ≤ 0 then
      (zeroOrderWithItems, some (GoError.message ("order ID must be greater than 0")))
    else
      match ctx.errValue with
      | some e => (zeroOrderWithItems, some e)
      | none =>
        match repoRes.2 with
        | some e => (zeroOrderWithItems, some e)
        | none =>
          if repoRes.1.Order.ID = 0 then
            (zeroOrderWithItems, some (GoError.message ("order not found")))
          else (repoRes.1, none)

/-- `OrderService.GetOrderById` composed with the real repository. -/
def serviceGetOrderByIdFull (ctx : CtxState) (env : ReadEnv) (s : Store) (id : Int) :
    OrderWithItems × Option GoError :=
  serviceGetOrderById ctx id (getOrderById env s id)

/-- `OrderService.UpdateOrder` as a function of the repository: no
validation at all — the update-only order (id, status, now as updated-at)
is built and the repository is called unconditionally; its error is
returned unchanged. -/
def serviceUpdateOrderW (repoUpdate : Order → Option GoError) (now : Int)
    (input : UpdateOrderInput) : Option GoError :=
  repoUpdate { ID := input.ID, CustomerName := "", TotalAmount := 0,
               Status := input.Status, CreatedAt := 0, UpdatedAt := now }

/-- `OrderService.UpdateOrder` composed with the real repository. -/
def serviceUpdateOrderFull (env : Env) (s : Store) (now : Int)
    (input : UpdateOrderInput) : Store × Option GoError :=
  updateOrder env s
    { ID := input.ID, CustomerName := "", TotalAmount := 0,
      Status := input.Status, CreatedAt := 0, UpdatedAt := now }

/-- `OrderService.DeleteOrder` as a function of the repository: pure
delegation, no validation. -/
def serviceDeleteOrderW (repoDelete : Int → Option GoError) (id : Int) : Option GoError :=
  repoDelete id

/-- A NotFound-style error in the sense of the spec: either the explicit
row-absence error of the repository (`pgx.ErrNoRows`) or the sentinel
normalization error of the service (`errors.New("order not found")`). -/
def isNotFoundStyle (e : GoError) : Prop :=
  e = GoError.noRows ∨ e = GoError.message ("order not found")

lemma firstItemError_eq_none_iff (env : Env) :
    ∀ (n i : Nat), firstItemError env n i = none ↔ ∀ j, j < n → env.stmt (i + 1 + j) = none := by
  intro n
  induction n with
  | zero => intro i; simp [firstItemError]
  | succ m ih =>
    intro i
    unfold firstItemError
    cases h : env.stmt (i + 1) with
    | some f =>
      simp only [h]
      constructor
      · intro hc; cases hc
      · intro hall
        have h0 := hall 0 (Nat.succ_pos m)
        rw [Nat.add_zero] at h0
        rw [h0] at h
        cases h
    | none =>
      simp only [h]
      rw [ih (i + 1)]
      constructor
      · intro hall j hj
        cases j with
        | zero => simpa using h
        | succ k =>
          have hk := hall k (by omega)
          have e : i + 1 + (k + 1) = i + 1 + 1 + k := by omega
          rw [e]
          exact hk
      · intro hall j hj
        have hk := hall (j + 1) (by omega)
        have e : i + 1 + 1 + j = i + 1 + (j + 1) := by omega
        rw [e]
        exact hk

lemma insertItems_ok (env : Env) (oid : Int) :
    ∀ (items : List OrderItem) (tx : Store) (i : Nat),
      firstItemError env items.length i = none →
      insertItems env oid tx items i =
        Except.ok { tx with items := tx.items ++ mkItemRows tx.nextItemId oid items,
                            nextItemId := tx.nextItemId + items.length } := by
  intro items
  induction items with
  | nil =>
    intro tx i _
    simp [insertItems, mkItemRows]
  | cons it rest ih =>
    intro tx i h
    simp only [List.length_cons] at h
    unfold firstItemError at h
    cases hs : env.stmt (i + 1) with
    | some f => rw [hs] at h; cases h
    | none =>
      rw [hs] at h
      unfold insertItems
      rw [hs]
      rw [ih _ (i + 1) h]
      obtain ⟨txo, txi, tno, tni⟩ := tx
      simp only [mkItemRows, List.length_cons, Except.ok.injEq, Store.mk.injEq]
      refine ⟨trivial, ?_, trivial, ?_⟩
      · simp [List.append_assoc]
      · push_cast
        ring

lemma insertItems_error (env : Env) (oid : Int) :
    ∀ (items : List OrderItem) (tx : Store) (i : Nat) (e : GoError),
      firstItemError env items.length i = some e →
      insertItems env oid tx items i = Except.error e := by
  intro items
  induction items with
  | nil => intro tx i e h; cases h
  | cons it rest ih =>
    intro tx i e h
    simp only [List.length_cons] at h
    unfold firstItemError at h
    cases hs : env.stmt (i + 1) with
    | some f =>
      rw [hs] at h
      unfold insertItems
      rw [hs]
      cases h
      rfl
    | none =>
      rw [hs] at h
      unfold insertItems
      rw [hs]
      exact ih _ (i + 1) e h

/-- Full characterization of `createOrder`: either every call succeeded and
the committed store is the old one plus the order row and all item rows
(with the sequences advanced), or the first failing call's error is
returned and the committed store is exactly the original one. -/
lemma createOrder_spec (env : Env) (s : Store) (order : Order) (items : List OrderItem) :
    (createOrder env s order items =
       ({ orders := s.orders ++ [mkOrderRow s.nextOrderId order],
          items := s.items ++ mkItemRows s.nextItemId s.nextOrderId items,
          nextOrderId := s.nextOrderId + 1,
          nextItemId := s.nextItemId + items.length }, none)
      ∧ createFirstError env items.length = none)
    ∨ (∃ e, createOrder env s order items = (s, some e)
        ∧ createFirstError env items.length = some e) := by
  unfold createOrder createFirstError
  cases hb : env.beginTx with
  | some f => exact Or.inr ⟨_, rfl, rfl⟩
  | none =>
    cases h0 : env.stmt 0 with
    | some f => exact Or.inr ⟨_, rfl, rfl⟩
    | none =>
      cases hfi : firstItemError env items.length 0 with
      | some e =>
        rw [insertItems_error env s.nextOrderId items _ 0 e hfi]
        exact Or.inr ⟨e, rfl, rfl⟩
      | none =>
        rw [insertItems_ok env s.nextOrderId items _ 0 hfi]
        cases hc : env.commit with
        | some f => exact Or.inr ⟨_, rfl, rfl⟩
        | none => exact Or.inl ⟨rfl, rfl⟩

lemma createFirstError_eq_none_iff (env : Env) (n : Nat) :
    createFirstError env n = none ↔
      env.beginTx = none ∧ (∀ i, i ≤ n → env.stmt i = none) ∧ env.commit = none := by
  unfold createFirstError
  cases hb : env.beginTx with
  | some f => simp
  | none =>
    simp only [true_and]
    cases h0 : env.stmt 0 with
    | some f =>
      simp only []
      constructor
      · intro hc; cases hc
      · rintro ⟨hall, -⟩
        have := hall 0 (Nat.zero_le n)
        rw [this] at h0
        cases h0
    | none =>
      cases hfi : firstItemError env n 0 with
      | some e =>
        simp only []
        constructor
        · intro hc; cases hc
        · rintro ⟨hall, -⟩
          have : firstItemError env n 0 = none := by
            rw [firstItemError_eq_none_iff]
            intro j hj
            exact hall (0 + 1 + j) (by omega)
          rw [this] at hfi
          cases hfi
      | none =>
        cases hc : env.commit with
        | some f => simp
        | none =>
          simp only [eq_self_iff_true, and_true, true_iff]
          intro i hi
          cases i with
          | zero => exact h0
          | succ k =>
            have hall := (firstItemError_eq_none_iff env n 0).mp hfi
            have hk := hall k (by omega)
            have e : 0 + 1 + k = k + 1 := by omega
            rw [e] at hk
            exact hk

/-- Claim C1: `Repository.CreateOrder` is all-or-nothing.  For every
outcome environment, store, order and item list: the returned error is
exactly the error of the first failing call; on success the committed
store contains the order row and every item row of this attempt; on any
failure the committed store is unchanged (rollback discards the partial
state); and the transaction commits (returns no error) precisely when the
begin, the order insert, every item insert and the commit all succeed. -/
theorem C1_createOrder_all_or_nothing (env : Env) (s : Store) (order : Order)
    (items : List OrderItem) :
    (createOrder env s order items).2 = createFirstError env items.length
    ∧ ((createOrder env s order items).2 = none →
        (createOrder env s order items).1.orders = s.orders ++ [mkOrderRow s.nextOrderId order]
        ∧ (createOrder env s order items).1.items =
            s.items ++ mkItemRows s.nextItemId s.nextOrderId items)
    ∧ ((createOrder env s order items).2 ≠ none → (createOrder env s order items).1 = s)
    ∧ ((createOrder env s order items).2 = none ↔
        env.beginTx = none ∧ (∀ i, i ≤ items.length → env.stmt i = none) ∧ env.commit = none) := by
  rcases createOrder_spec env s order items with ⟨h1, h2⟩ | ⟨e, h1, h2⟩
  · refine ⟨?_, ?_, ?_, ?_⟩
    · rw [h1, h2]
    · intro _
      rw [h1]
      exact ⟨rfl, rfl⟩
    · intro hne
      rw [h1] at hne
      simp at hne
    · rw [h1]
      simp only [true_iff]
      exact (createFirstError_eq_none_iff env items.length).mp h2
  · refine ⟨?_, ?_, ?_, ?_⟩
    · rw [h1, h2]
    · intro hnone
      rw [h1] at hnone
      cases hnone
    · intro _
      rw [h1]
    · rw [h1]
      simp only [reduceCtorEq, false_iff]
      intro hall
      have : createFirstError env items.length = none :=
        (createFirstError_eq_none_iff env items.length).mpr hall
      rw [this] at h2
      cases h2

def w1Store : Store := { orders := [], items := [], nextOrderId := 1, nextItemId := 1 }

def w1Order : Order :=
  { ID := 0, CustomerName := "John Doe", TotalAmount := 100, Status := "pending",
    CreatedAt := 0, UpdatedAt := 0 }

def w1Item : OrderItem :=
  { ID := 0, OrderID := 0, ProductName := "Widget", Quantity := 2, Price := 50,
    CreatedAt := 0, UpdatedAt := 0 }

/-- Witness for C1 at a concrete successful run. -/
theorem C1_witness :
    (createOrder okEnv w1Store w1Order [w1Item]).2 = none
    ∧ (createOrder okEnv w1Store w1Order [w1Item]).1.orders =
        w1Store.orders ++ [mkOrderRow w1Store.nextOrderId w1Order]
    ∧ (createOrder okEnv w1Store w1Order [w1Item]).1.items =
        w1Store.items ++ mkItemRows w1Store.nextItemId w1Store.nextOrderId [w1Item] :=
  ⟨by decide, (C1_createOrder_all_or_nothing okEnv w1Store w1Order [w1Item]).2.1 (by decide)⟩

lemma processItems_ok (items : List OrderItem) (its : List OrderItem) (t : ℚ)
    (h : processItems items = Except.ok (its, t)) :
    its = items.map cleanInputItem ∧ t = inputTotal items
    ∧ ∀ v ∈ items, 0 < v.Quantity ∧ 0 ≤ v.Price := by
  induction items generalizing its t with
  | nil =>
    unfold processItems at h
    cases h
    exact ⟨rfl, by simp [inputTotal], by simp⟩
  | cons v rest ih =>
    unfold processItems at h
    by_cases hq : v.Quantity ≤ 0
    · rw [if_pos hq] at h; cases h
    · rw [if_neg hq] at h
      by_cases hp : v.Price < 0
      · rw [if_pos hp] at h; cases h
      · rw [if_neg hp] at h
        cases hrest : processItems rest with
        | error e => rw [hrest] at h; cases h
        | ok p =>
          obtain ⟨its0, t0⟩ := p
          rw [hrest] at h
          cases h
          obtain ⟨h1, h2, h3⟩ := ih its0 t0 hrest
          refine ⟨by rw [h1]; rfl, ?_, ?_⟩
          · rw [h2]
            simp [inputTotal]
          · intro w hw
            rcases List.mem_cons.mp hw with rfl | hw2
            · exact ⟨by omega, not_lt.mp hp⟩
            · exact h3 w hw2

lemma processItems_error_of_bad (items : List OrderItem)
    (h : ∃ v ∈ items, v.Quantity ≤ 0 ∨ v.Price < 0) :
    ∃ e, processItems items = Except.error e := by
  cases hp : processItems items with
  | error e => exact ⟨e, rfl⟩
  | ok p =>
    obtain ⟨v, hv, hbad⟩ := h
    obtain ⟨-, -, h3⟩ := processItems_ok items p.1 p.2 (by rw [hp])
    obtain ⟨hq, hpr⟩ := h3 v hv
    rcases hbad with hbad | hbad
    · omega
    · exact absurd hpr (not_le.mpr hbad)

/-- What a successful service validation yields: the constructed order and
the copied item list. -/
lemma serviceCreateOrder_ok (input : CreateOrderInput) (order : Order)
    (its : List OrderItem) (h : serviceCreateOrder input = Except.ok (order, its)) :
    order = { ID := 0, CustomerName := input.CustomerName,
              TotalAmount := inputTotal input.Items, Status := StatusPending,
              CreatedAt := 0, UpdatedAt := 0 }
    ∧ its = input.Items.map cleanInputItem
    ∧ input.CustomerName ≠ "" ∧ input.Items.length ≠ 0
    ∧ ∀ v ∈ input.Items, 0 < v.Quantity ∧ 0 ≤ v.Price := by
  unfold serviceCreateOrder at h
  by_cases hn : input.CustomerName = ""
  · rw [if_pos hn] at h; cases h
  · rw [if_neg hn] at h
    by_cases hl : input.Items.length = 0
    · rw [if_pos hl] at h; cases h
    · rw [if_neg hl] at h
      cases hp : processItems input.Items with
      | error e => rw [hp] at h; cases h
      | ok p =>
        obtain ⟨its0, t0⟩ := p
        rw [hp] at h
        cases h
        obtain ⟨h1, h2, h3⟩ := processItems_ok input.Items its t0 hp
        exact ⟨by rw [h2], h1, hn, hl, h3⟩

/-- Claim C2: for every input that passes the service validation, the order
handed to the repository has `TotalAmount = Σ price * quantity` over the
input items and status `pending`; the same order and items result whatever
`TotalAmount` or `Status` value the caller supplied; and on a successful
run the persisted order row carries exactly that computed total and
status. -/
theorem C2_service_total_computation (input : CreateOrderInput) (order : Order)
    (its : List OrderItem)
    (h : serviceCreateOrder input = Except.ok (order, its)) :
    order.TotalAmount = inputTotal input.Items
    ∧ order.Status = StatusPending
    ∧ (∀ t st, serviceCreateOrder
        { CustomerName := input.CustomerName, TotalAmount := t, Status := st,
          Items := input.Items } = Except.ok (order, its))
    ∧ (∀ (env : Env) (s : Store), (serviceCreateOrderFull env s input).2 = none →
        (serviceCreateOrderFull env s input).1.orders =
          s.orders ++ [mkOrderRow s.nextOrderId order]
        ∧ (mkOrderRow s.nextOrderId order).total_amount = inputTotal input.Items
        ∧ (mkOrderRow s.nextOrderId order).status = StatusPending) := by
  obtain ⟨ho, hi, hn, hl, hv⟩ := serviceCreateOrder_ok input order its h
  subst ho
  have hfull : ∀ (env : Env) (s : Store),
      serviceCreateOrderFull env s input = createOrder env s
        { ID := 0, CustomerName := input.CustomerName,
          TotalAmount := inputTotal input.Items, Status := StatusPending,
          CreatedAt := 0, UpdatedAt := 0 } its := by
    intro env s
    unfold serviceCreateOrderFull
    rw [h]
  refine ⟨rfl, rfl, ?_, ?_⟩
  · intro t st
    have hsame : serviceCreateOrder
        { CustomerName := input.CustomerName, TotalAmount := t, Status := st,
          Items := input.Items } = serviceCreateOrder input := rfl
    rw [hsame, h]
  · intro env s hsucc
    rw [hfull env s] at hsucc ⊢
    rcases createOrder_spec env s
        { ID := 0, CustomerName := input.CustomerName,
          TotalAmount := inputTotal input.Items, Status := StatusPending,
          CreatedAt := 0, UpdatedAt := 0 } its with ⟨h1, -⟩ | ⟨e, h1, -⟩
    · rw [h1]
      exact ⟨rfl, rfl, rfl⟩
    · rw [h1] at hsucc
      cases hsucc

def w2Input : CreateOrderInput :=
  { CustomerName := "John Doe", TotalAmount := 999, Status := "completed",
    Items := [{ ID := 42, OrderID := 42, ProductName := "Widget", Quantity := 2,
                Price := 201 / 4, CreatedAt := 0, UpdatedAt := 0 }] }

def w2Order : Order :=
  { ID := 0, CustomerName := "John Doe", TotalAmount := 201 / 2,
    Status := "pending", CreatedAt := 0, UpdatedAt := 0 }

def w2Items : List OrderItem :=
  [{ ID := 0, OrderID := 0, ProductName := "Widget", Quantity := 2,
     Price := 201 / 4, CreatedAt := 0, UpdatedAt := 0 }]

lemma w2_run : serviceCreateOrder w2Input = Except.ok (w2Order, w2Items) := by
  unfold serviceCreateOrder w2Input
  rw [if_neg (show ¬ ("John Doe" = "") by decide)]
  norm_num [processItems, cleanInputItem, w2Order, w2Items, StatusPending]

/-- Witness for C2: the spec scenario — 2 × 50.25 gives a persisted total
of 100.50 and status `pending`, although the caller supplied total 999 and
status `completed`. -/
theorem C2_witness :
    w2Order.TotalAmount = inputTotal w2Input.Items
    ∧ w2Order.Status = StatusPending :=
  ⟨(C2_service_total_computation w2Input w2Order w2Items w2_run).1,
   (C2_service_total_computation w2Input w2Order w2Items w2_run).2.1⟩

lemma normSize_pos (sz : Int) : 0 < normSize sz := by
  unfold normSize
  split <;> omega

lemma length_sortedInsertDesc (r : OrderRow) (l : List OrderRow) :
    (sortedInsertDesc r l).length = l.length + 1 := by
  induction l with
  | nil => rfl
  | cons x xs ih =>
    unfold sortedInsertDesc
    split <;> simp [ih]

lemma length_sortByCreatedAtDesc (l : List OrderRow) :
    (sortByCreatedAtDesc l).length = l.length := by
  induction l with
  | nil => rfl
  | cons x xs ih =>
    unfold sortByCreatedAtDesc
    rw [length_sortedInsertDesc, ih]
    rfl

/-- Integer ceiling division: for a nonnegative numerator and positive
denominator, the `(t + sz - 1) / sz` formula of the source computes
`⌈t / sz⌉`. -/
lemma ceil_formula (t sz : Int) (hs : 0 < sz) :
    ⌈(t : ℚ) / (sz : ℚ)⌉ = (t + sz - 1) / sz := by
  have hsz : sz ≠ 0 := ne_of_gt hs
  have hdm := Int.ediv_add_emod (t + sz - 1) sz
  have hr0 : 0 ≤ (t + sz - 1) % sz := Int.emod_nonneg _ hsz
  have hr1 : (t + sz - 1) % sz < sz := Int.emod_lt_of_pos _ hs
  have hsQ : (0 : ℚ) < (sz : ℚ) := by exact_mod_cast hs
  rw [Int.ceil_eq_iff]
  constructor
  · rw [lt_div_iff₀ hsQ]
    have hZ : ((t + sz - 1) / sz - 1) * sz < t := by
      have e1 : ((t + sz - 1) / sz - 1) * sz = sz * ((t + sz - 1) / sz) - sz := by ring
      omega
    calc ((((t + sz - 1) / sz : Int) : ℚ) - 1) * (sz : ℚ)
        = ((((t + sz - 1) / sz - 1) * sz : Int) : ℚ) := by push_cast; ring
      _ < ((t : Int) : ℚ) := by exact_mod_cast hZ
  · rw [div_le_iff₀ hsQ]
    have hZ : t ≤ ((t + sz - 1) / sz) * sz := by
      have e1 : ((t + sz - 1) / sz) * sz = sz * ((t + sz - 1) / sz) := by ring
      omega
    calc ((t : Int) : ℚ) ≤ ((((t + sz - 1) / sz) * sz : Int) : ℚ) := by exact_mod_cast hZ
      _ = (((t + sz - 1) / sz : Int) : ℚ) * (sz : ℚ) := by push_cast; ring

/-- Amended claim C3: for every store and every page/size input (invalid
ones normalized to page ≥ 1 with default 1 and size ≥ 1 with default 10),
the result satisfies `len(Data) ≤ size` and
`TotalPages = ⌈Total / size⌉`; `Total` equals the full count of order
rows whenever the requested page is non-empty; but when the requested
page is empty — including a page past the last non-empty page of a
non-empty store — the source returns `Total = 0` and `TotalPages = 0`
(the claim's "Total is independent of the requested page" fails there,
see the counterexample). -/
theorem C3_pagination_invariants (s : Store) (input : ListInput) :
    (listOrders s input).Page = normPage input.Page
    ∧ (listOrders s input).Size = normSize input.Size
    ∧ (((listOrders s input).Data.length : Int) ≤ (listOrders s input).Size)
    ∧ ((listOrders s input).TotalPages =
        ⌈((listOrders s input).Total : ℚ) / (((listOrders s input).Size : Int) : ℚ)⌉)
    ∧ ((listOrders s input).Data ≠ [] → (listOrders s input).Total = (s.orders.length : Int))
    ∧ ((listOrders s input).Data = [] →
        (listOrders s input).Total = 0 ∧ (listOrders s input).TotalPages = 0) := by
  have hpos := normSize_pos input.Size
  by_cases hp : listPageRows s input = []
  · unfold listOrders
    rw [if_pos hp]
    refine ⟨rfl, rfl, ?_, ?_, ?_, ?_⟩
    · simp
      omega
    · simp
    · intro hne
      exact absurd rfl hne
    · intro _
      exact ⟨rfl, rfl⟩
  · unfold listOrders
    rw [if_neg hp]
    refine ⟨rfl, rfl, ?_, ?_, ?_, ?_⟩
    · simp only [List.length_map]
      have h1 : (listPageRows s input).length ≤ (normSize input.Size).toNat := by
        unfold listPageRows
        exact List.length_take_le _ _
      have h2 : ((normSize input.Size).toNat : Int) = normSize input.Size :=
        Int.toNat_of_nonneg (le_of_lt hpos)
      omega
    · rw [ceil_formula ((listOrdersSorted s).length : Int) (normSize input.Size) hpos]
    · intro _
      rw [listOrdersSorted, length_sortByCreatedAtDesc]
    · intro hdata
      have : (listPageRows s input).map (fun r =>
          ({ Order := rowToOrder r,
             Items := (s.items.filter (fun r2 => decide (r2.order_id = r.id))).map rowToItem }
             : OrderWithItems)) = [] := hdata
      rw [List.map_eq_nil_iff] at this
      exact absurd this hp

def w3Store : Store :=
  { orders := [{ id := 1, customer_name := "a", total_amount := 5, status := "pending",
                 created_at := 3, updated_at := 3 },
               { id := 2, customer_name := "b", total_amount := 7, status := "pending",
                 created_at := 1, updated_at := 1 }],
    items := [], nextOrderId := 3, nextItemId := 1 }

/-- Witness for C3 at the invalid input page=0, size=-1 (normalized to
page 1, size 10) on a two-order store: the page is non-empty and `Total`
is the full row count. -/
theorem C3_witness :
    (listOrders w3Store { Page := 0, Size := -1 }).Data ≠ []
    ∧ (listOrders w3Store { Page := 0, Size := -1 }).Total = (w3Store.orders.length : Int) :=
  ⟨by decide, (C3_pagination_invariants w3Store { Page := 0, Size := -1 }).2.2.2.2.1 (by decide)⟩

def c3Store : Store :=
  { orders := [{ id := 1, customer_name := "a", total_amount := 5, status := "pending",
                 created_at := 3, updated_at := 3 }],
    items := [], nextOrderId := 2, nextItemId := 1 }

/-- Counterexample to C3 as stated: on a store holding one order, asking
for page 2 (size 10) — a page past the last non-empty page — returns
`Total = 0`, not the full matching row count 1, so `Total` is not
independent of the requested page. -/
theorem C3_counterexample :
    (listOrders c3Store { Page := 2, Size := 10 }).Total = 0
    ∧ c3Store.orders.length = 1 := by decide

/-- Claim C4: for every id not present in the store, the repository's
`GetOrderById` returns the explicit row-absence error (`pgx.ErrNoRows`),
never a zero-valued success; through the service the caller receives that
same NotFound-style error; the service also normalizes a zero-value
sentinel result (`order.ID == 0` with no error) into a NotFound-style
error; and a NotFound-style error is distinguishable from the
cancellation and deadline end conditions. -/
theorem C4_get_not_found (s : Store) (id : Int)
    (hAbsent : ∀ r ∈ s.orders, r.id ≠ id) (hPos : 0 < id) :
    getOrderById okReadEnv s id = (zeroOrderWithItems, some GoError.noRows)
    ∧ (serviceGetOrderByIdFull CtxState.ok okReadEnv s id).2 = some GoError.noRows
    ∧ (∃ e, (serviceGetOrderByIdFull CtxState.ok okReadEnv s id).2 = some e
        ∧ isNotFoundStyle e)
    ∧ serviceGetOrderById CtxState.ok id (zeroOrderWithItems, none) =
        (zeroOrderWithItems, some (GoError.message ("order not found")))
    ∧ (∀ e, isNotFoundStyle e → e.kind = EndKind.other) := by
  have hfind : s.orders.find? (fun r => decide (r.id = id)) = none := by
    rw [List.find?_eq_none]
    intro r hr
    simp only [decide_eq_true_eq]
    exact hAbsent r hr
  have hrepo : getOrderById okReadEnv s id = (zeroOrderWithItems, some GoError.noRows) := by
    unfold getOrderById okReadEnv
    rw [hfind]
  have hid : ¬ id ≤ 0 := by omega
  refine ⟨hrepo, ?_, ?_, ?_, ?_⟩
  · unfold serviceGetOrderByIdFull
    rw [hrepo]
    unfold serviceGetOrderById CtxState.errValue
    rw [if_neg hid]
  · refine ⟨GoError.noRows, ?_, Or.inl rfl⟩
    unfold serviceGetOrderByIdFull
    rw [hrepo]
    unfold serviceGetOrderById CtxState.errValue
    rw [if_neg hid]
  · unfold serviceGetOrderById CtxState.errValue
    rw [if_neg hid]
    rfl
  · intro e he
    rcases he with rfl | rfl <;> rfl

/-- Witness for C4 on the empty store and id 5. -/
theorem C4_witness :
    (serviceGetOrderByIdFull CtxState.ok okReadEnv
        { orders := [], items := [], nextOrderId := 1, nextItemId := 1 } 5).2 =
      some GoError.noRows :=
  (C4_get_not_found { orders := [], items := [], nextOrderId := 1, nextItemId := 1 } 5
    (by intro r hr; cases hr) (by decide)).2.1

lemma firstItemError_first_fail (env : Env) (f : DbFail) :
    ∀ (k n i : Nat), k < n → (∀ j, j < k → env.stmt (i + 1 + j) = none) →
      env.stmt (i + 1 + k) = some f →
      firstItemError env n i = some (repoWrap ("failed to insert order item") f) := by
  intro k
  induction k with
  | zero =>
    intro n i hk hall hf
    cases n with
    | zero => omega
    | succ m =>
      unfold firstItemError
      rw [Nat.add_zero] at hf
      rw [hf]
  | succ k ih =>
    intro n i hk hall hf
    cases n with
    | zero => omega
    | succ m =>
      unfold firstItemError
      have h0 := hall 0 (Nat.succ_pos k)
      rw [Nat.add_zero] at h0
      rw [h0]
      refine ih m (i + 1) (by omega) ?_ ?_
      · intro j hj
        have := hall (j + 1) (by omega)
        have e : i + 1 + 1 + j = i + 1 + (j + 1) := by omega
        rw [e]
        exact this
      · have e : i + 1 + 1 + k = i + 1 + (k + 1) := by omega
        rw [e]
        exact hf

/-- Claim C5: cancellation and deadline signals.  If the context is
cancelled before the transaction begins, no write occurs and the
cancellation error is returned; if the first failure is a cancellation of
the k-th item insert mid-transaction, the transaction is rolled back (the
committed store is unchanged) and the cancellation error — not a partial
success — is returned; the service hands the repository result through
unchanged; the repository's wrapping of other errors preserves the end
condition of the underlying failure; and the three end conditions are
pairwise distinct. -/
theorem C5_cancellation_propagation (env : Env) (s : Store) (order : Order)
    (items : List OrderItem) (input : CreateOrderInput) (k : Nat) :
    (env.beginTx = some DbFail.canceled →
      createOrder env s order items = (s, some GoError.canceled))
    ∧ (env.beginTx = none → env.stmt 0 = none →
        (∀ j, j < k → env.stmt (j + 1) = none) →
        env.stmt (k + 1) = some DbFail.canceled → k < items.length →
        createOrder env s order items = (s, some GoError.canceled))
    ∧ (∀ o its, serviceCreateOrder input = Except.ok (o, its) →
        serviceCreateOrderFull env s input = createOrder env s o its)
    ∧ (∀ op f, (repoWrap op f).kind = f.kind)
    ∧ (EndKind.canceled ≠ EndKind.deadlineExceeded
        ∧ EndKind.canceled ≠ EndKind.other
        ∧ EndKind.deadlineExceeded ≠ EndKind.other) := by
  refine ⟨?_, ?_, ?_, ?_, by decide⟩
  · intro hb
    unfold createOrder
    rw [hb]
    rfl
  · intro hb h0 hall hf hk
    have hfi : firstItemError env items.length 0 =
        some (repoWrap ("failed to insert order item") DbFail.canceled) := by
      refine firstItemError_first_fail env DbFail.canceled k items.length 0 hk ?_ ?_
      · intro j hj
        have := hall j hj
        have e : 0 + 1 + j = j + 1 := by omega
        rw [e]
        exact this
      · have e : 0 + 1 + k = k + 1 := by omega
        rw [e]
        exact hf
    rcases createOrder_spec env s order items with ⟨h1, h2⟩ | ⟨e, h1, h2⟩
    · rw [(createFirstError_eq_none_iff env items.length).mp h2 |>.2.1 (k + 1) (by omega)] at hf
      cases hf
    · rw [h1]
      have : createFirstError env items.length =
          some (repoWrap ("failed to insert order item") DbFail.canceled) := by
        unfold createFirstError
        rw [hb, h0, hfi]
      rw [this] at h2
      cases h2
      rfl
  · intro o its h
    unfold serviceCreateOrderFull
    rw [h]
  · intro op f
    cases f <;> rfl

def w5Env : Env :=
  { beginTx := none, stmt := fun i => if i = 1 then some DbFail.canceled else none,
    commit := none }

/-- Witness for C5: a run whose first item insert is cancelled
mid-transaction rolls back and returns the cancellation error. -/
theorem C5_witness :
    createOrder w5Env w1Store w1Order [w1Item] = (w1Store, some GoError.canceled) :=
  (C5_cancellation_propagation w5Env w1Store w1Order [w1Item]
      { CustomerName := "", TotalAmount := 0, Status := "", Items := [] } 0).2.1
    rfl rfl (fun j hj => absurd hj (Nat.not_lt_zero j)) rfl (by decide)

lemma deleteOrder_spec (env : Env) (s : Store) (id : Int) :
    (deleteOrder env s id =
       ({ s with orders := s.orders.filter (fun r => decide (r.id ≠ id)),
                 items := s.items.filter (fun it => decide (it.order_id ≠ id)) }, none)
      ∧ (s.orders.filter (fun r => decide (r.id = id))).length ≠ 0)
    ∨ (∃ e, deleteOrder env s id = (s, some e)) := by
  unfold deleteOrder
  cases hb : env.beginTx with
  | some f => exact Or.inr ⟨_, rfl⟩
  | none =>
    cases h0 : env.stmt 0 with
    | some f => exact Or.inr ⟨_, rfl⟩
    | none =>
      cases h1 : env.stmt 1 with
      | some f => exact Or.inr ⟨_, rfl⟩
      | none =>
        by_cases hz : (s.orders.filter (fun r => decide (r.id = id))).length = 0
        · rw [if_pos hz]
          exact Or.inr ⟨_, rfl⟩
        · rw [if_neg hz]
          cases hc : env.commit with
          | some f => exact Or.inr ⟨_, rfl⟩
          | none => exact Or.inl ⟨rfl, hz⟩

/-- Claim C6: `DeleteOrder` deletes the item rows first and the order row
second inside one transaction; on success both the order row and its item
rows are gone; on any failure the committed store is unchanged (the
rollback undoes an already-executed item delete); and when the order id
matches no row the operation reports the not-found error and leaves the
store untouched. -/
theorem C6_delete_atomic (env : Env) (s : Store) (id : Int) :
    ((deleteOrder env s id).2 = none →
        (deleteOrder env s id).1.orders = s.orders.filter (fun r => decide (r.id ≠ id))
        ∧ (deleteOrder env s id).1.items = s.items.filter (fun it => decide (it.order_id ≠ id))
        ∧ ∃ r ∈ s.orders, r.id = id)
    ∧ ((deleteOrder env s id).2 ≠ none → (deleteOrder env s id).1 = s)
    ∧ ((∀ r ∈ s.orders, r.id ≠ id) → env.beginTx = none → env.stmt 0 = none →
        env.stmt 1 = none →
        deleteOrder env s id =
          (s, some (GoError.message ("order with ID " ++ toString id ++ " not found")))) := by
  refine ⟨?_, ?_, ?_⟩
  · intro hnone
    rcases deleteOrder_spec env s id with ⟨h1, h2⟩ | ⟨e, h1⟩
    · rw [h1]
      refine ⟨rfl, rfl, ?_⟩
      have hne : s.orders.filter (fun r => decide (r.id = id)) ≠ [] := by
        intro hnil
        rw [hnil] at h2
        exact h2 rfl
      obtain ⟨x, hx⟩ := List.exists_mem_of_ne_nil _ hne
      obtain ⟨hmem, hpx⟩ := List.mem_filter.mp hx
      exact ⟨x, hmem, of_decide_eq_true hpx⟩
    · rw [h1] at hnone
      cases hnone
  · intro hne
    rcases deleteOrder_spec env s id with ⟨h1, -⟩ | ⟨e, h1⟩
    · rw [h1] at hne
      simp at hne
    · rw [h1]
  · intro hAbs hb h0 h1s
    have hfil : s.orders.filter (fun r => decide (r.id = id)) = [] := by
      rw [List.filter_eq_nil_iff]
      intro r hr
      simp only [decide_eq_true_eq]
      exact hAbs r hr
    unfold deleteOrder
    simp [hb, h0, h1s, hfil]

/-- Witness for C6: deleting id 7 from the empty store reports the
not-found error and leaves the store unchanged. -/
theorem C6_witness :
    deleteOrder okEnv w1Store 7 =
      (w1Store, some (GoError.message ("order with ID " ++ toString (7 : Int) ++ " not found"))) :=
  (C6_delete_atomic okEnv w1Store 7).2.2 (fun r hr => absurd hr (List.not_mem_nil r)) rfl rfl rfl

lemma updateOrder_spec (env : Env) (s : Store) (order : Order) :
    (updateOrder env s order =
       ({ s with orders := s.orders.map (fun r =>
            if r.id = order.ID then
              { r with status := order.Status, updated_at := order.UpdatedAt }
            else r) }, none)
      ∧ (s.orders.filter (fun r => decide (r.id = order.ID))).length ≠ 0)
    ∨ (∃ e, updateOrder env s order = (s, some e)) := by
  unfold updateOrder
  cases hb : env.beginTx with
  | some f => exact Or.inr ⟨_, rfl⟩
  | none =>
    cases h0 : env.stmt 0 with
    | some f => exact Or.inr ⟨_, rfl⟩
    | none =>
      by_cases hz : (s.orders.filter (fun r => decide (r.id = order.ID))).length = 0
      · rw [if_pos hz]
        exact Or.inr ⟨_, rfl⟩
      · rw [if_neg hz]
        cases hc : env.commit with
        | some f => exact Or.inr ⟨_, rfl⟩
        | none => exact Or.inl ⟨rfl, hz⟩

/-- Claim C7: `UpdateOrder` modifies exactly the status and updated-at
columns of the row matching the id: on success the orders table is the
pointwise update and the items table is untouched; every row of the
resulting table keeps its id, customer name, total amount and created-at
from some original row, whatever the outcome; on any failure the store is
unchanged; and when no row matches the id the operation reports the
not-found error and rolls back. -/
theorem C7_update_frame (env : Env) (s : Store) (order : Order) :
    ((updateOrder env s order).2 = none →
        (updateOrder env s order).1.items = s.items
        ∧ (updateOrder env s order).1.orders = s.orders.map (fun r =>
            if r.id = order.ID then
              { r with status := order.Status, updated_at := order.UpdatedAt }
            else r)
        ∧ ∃ r ∈ s.orders, r.id = order.ID)
    ∧ (∀ r ∈ (updateOrder env s order).1.orders, ∃ r0 ∈ s.orders,
          r.id = r0.id ∧ r.customer_name = r0.customer_name
          ∧ r.total_amount = r0.total_amount ∧ r.created_at = r0.created_at)
    ∧ ((updateOrder env s order).2 ≠ none → (updateOrder env s order).1 = s)
    ∧ ((∀ r ∈ s.orders, r.id ≠ order.ID) → env.beginTx = none → env.stmt 0 = none →
        updateOrder env s order =
          (s, some (GoError.message ("order with ID " ++ toString order.ID ++ " not found")))) := by
  refine ⟨?_, ?_, ?_, ?_⟩
  · intro hnone
    rcases updateOrder_spec env s order with ⟨h1, h2⟩ | ⟨e, h1⟩
    · rw [h1]
      refine ⟨rfl, rfl, ?_⟩
      have hne : s.orders.filter (fun r => decide (r.id = order.ID)) ≠ [] := by
        intro hnil
        rw [hnil] at h2
        exact h2 rfl
      obtain ⟨x, hx⟩ := List.exists_mem_of_ne_nil _ hne
      obtain ⟨hmem, hpx⟩ := List.mem_filter.mp hx
      exact ⟨x, hmem, of_decide_eq_true hpx⟩
    · rw [h1] at hnone
      cases hnone
  · intro r hr
    rcases updateOrder_spec env s order with ⟨h1, -⟩ | ⟨e, h1⟩
    · rw [h1] at hr
      simp only [List.mem_map] at hr
      obtain ⟨r0, hr0, rfl⟩ := hr
      refine ⟨r0, hr0, ?_⟩
      by_cases hid : r0.id = order.ID
      · rw [if_pos hid]
        exact ⟨rfl, rfl, rfl, rfl⟩
      · rw [if_neg hid]
        exact ⟨rfl, rfl, rfl, rfl⟩
    · rw [h1] at hr
      exact ⟨r, hr, rfl, rfl, rfl, rfl⟩
  · intro hne
    rcases updateOrder_spec env s order with ⟨h1, -⟩ | ⟨e, h1⟩
    · rw [h1] at hne
      simp at hne
    · rw [h1]
  · intro hAbs hb h0
    have hfil : s.orders.filter (fun r => decide (r.id = order.ID)) = [] := by
      rw [List.filter_eq_nil_iff]
      intro r hr
      simp only [decide_eq_true_eq]
      exact hAbs r hr
    unfold updateOrder
    simp [hb, h0, hfil]

/-- Witness for C7: updating id 0 (no such row) on the empty store reports
the not-found error and leaves the store unchanged. -/
theorem C7_witness :
    updateOrder okEnv w1Store
        { ID := 0, CustomerName := "", TotalAmount := 0, Status := "cancelled",
          CreatedAt := 0, UpdatedAt := 9 } =
      (w1Store, some (GoError.message ("order with ID " ++ toString (0 : Int) ++ " not found"))) :=
  (C7_update_frame okEnv w1Store
      { ID := 0, CustomerName := "", TotalAmount := 0, Status := "cancelled",
        CreatedAt := 0, UpdatedAt := 9 }).2.2.2
    (fun r hr => absurd hr (List.not_mem_nil r)) rfl rfl

/-- Amended claim C8: the Service's validation is per-operation, not
universal.  `CreateOrder` rejects an empty customer name, an empty item
list, a non-positive quantity and a negative price, and on any such
validation error the repository is never invoked and the store is
unchanged for every environment; `GetOrderById` rejects a non-positive id
before calling the repository (its result is independent of whatever the
repository would return); but `UpdateOrder` and `DeleteOrder` perform no
Service-side validation at all and delegate every input — including
non-positive ids — directly to the repository (see the counterexample). -/
theorem C8_service_validation (input : CreateOrderInput) (id : Int) :
    (input.CustomerName = "" →
      serviceCreateOrder input = Except.error (GoError.message ("customer name is required")))
    ∧ (input.CustomerName ≠ "" → input.Items = [] →
      serviceCreateOrder input =
        Except.error (GoError.message ("order must have at least one item")))
    ∧ ((∃ v ∈ input.Items, v.Quantity ≤ 0 ∨ v.Price < 0) →
        ∃ e, serviceCreateOrder input = Except.error e)
    ∧ (∀ e, serviceCreateOrder input = Except.error e →
        ∀ (env : Env) (s : Store), serviceCreateOrderFull env s input = (s, some e))
    ∧ (id ≤ 0 → ∀ r1 r2, serviceGetOrderById CtxState.ok id r1 =
        serviceGetOrderById CtxState.ok id r2)
    ∧ (id ≤ 0 → serviceGetOrderById CtxState.ok id (zeroOrderWithItems, none) =
        (zeroOrderWithItems, some (GoError.message ("order ID must be greater than 0"))))
    ∧ (∀ (repoU : Order → Option GoError) (now : Int) (u : UpdateOrderInput),
        serviceUpdateOrderW repoU now u =
          repoU { ID := u.ID, CustomerName := "", TotalAmount := 0,
                  Status := u.Status, CreatedAt := 0, UpdatedAt := now })
    ∧ (∀ (repoD : Int → Option GoError) (i : Int), serviceDeleteOrderW repoD i = repoD i) := by
  refine ⟨?_, ?_, ?_, ?_, ?_, ?_, fun _ _ _ => rfl, fun _ _ => rfl⟩
  · intro h
    unfold serviceCreateOrder
    rw [if_pos h]
  · intro h1 h2
    unfold serviceCreateOrder
    rw [if_neg h1, if_pos (by simp [h2])]
  · intro hbad
    cases hres : serviceCreateOrder input with
    | error e => exact ⟨e, rfl⟩
    | ok p =>
      obtain ⟨-, -, -, -, hv⟩ := serviceCreateOrder_ok input p.1 p.2 (by rw [hres])
      obtain ⟨v, hvmem, hb⟩ := hbad
      obtain ⟨hq, hpr⟩ := hv v hvmem
      rcases hb with hb | hb
      · omega
      · exact absurd hpr (not_le.mpr hb)
  · intro e h env s
    unfold serviceCreateOrderFull
    rw [h]
  · intro hid r1 r2
    simp only [serviceGetOrderById, CtxState.errValue]
    rw [if_pos hid, if_pos hid]
  · intro hid
    simp only [serviceGetOrderById, CtxState.errValue]
    rw [if_pos hid]

/-- Counterexample to C8 as stated: for the non-positive order id 0,
`Service.UpdateOrder` and `Service.DeleteOrder` do not reject the input —
the repository is invoked and its answer (here a sentinel error, and for
the real repository the zero-rows-affected not-found error) is what the
caller receives, not a validation error. -/
theorem C8_counterexample :
    serviceDeleteOrderW (fun _ => some (GoError.message ("store reached"))) 0 =
      some (GoError.message ("store reached"))
    ∧ serviceUpdateOrderW (fun _ => some (GoError.message ("store reached"))) 5
        { ID := 0, CustomerName := "", TotalAmount := 0, Status := "cancelled" } =
      some (GoError.message ("store reached"))
    ∧ (serviceUpdateOrderFull okEnv w1Store 5
        { ID := 0, CustomerName := "", TotalAmount := 0, Status := "cancelled" }).2 =
      some (GoError.message ("order with ID " ++ toString (0 : Int) ++ " not found")) :=
  ⟨rfl, rfl, rfl⟩

def w8Input : CreateOrderInput :=
  { CustomerName := "", TotalAmount := 0, Status := "", Items := [] }

/-- Witness for C8: an empty customer name is rejected by `CreateOrder`
and a non-positive id by `GetOrderById`. -/
theorem C8_witness :
    serviceCreateOrder w8Input = Except.error (GoError.message ("customer name is required"))
    ∧ serviceGetOrderById CtxState.ok 0 (zeroOrderWithItems, none) =
        (zeroOrderWithItems, some (GoError.message ("order ID must be greater than 0"))) :=
  ⟨(C8_service_validation w8Input 0).1 rfl,
   (C8_service_validation w8Input 0).2.2.2.2.2.1 (by decide)⟩

def c9Order : Order :=
  { ID := 0, CustomerName := "a", TotalAmount := 0, Status := "pending",
    CreatedAt := 0, UpdatedAt := 0 }

def c9StoreA : Store := { orders := [], items := [], nextOrderId := 1, nextItemId := 1 }

def c9StoreB : Store := { orders := [], items := [], nextOrderId := 5, nextItemId := 1 }

/-- Counterexample to C9 as stated: the Go function signature is
`CreateOrder(ctx, order, items) error` — the value returned to the caller
on success is `nil` whatever identifier the store generated, so no reader
of the return value can recover the generated OrderID: two stores whose
next generated ids differ (1 and 5) produce the same returned value. -/
theorem C9_counterexample :
    ¬ ∃ f : Option GoError → Int, ∀ s : Store,
        (createOrder okEnv s c9Order []).2 = none →
          f (createOrder okEnv s c9Order []).2 = s.nextOrderId := by
  rintro ⟨f, hf⟩
  have h1 : f none = (1 : Int) := hf c9StoreA rfl
  have h5 : f none = (5 : Int) := hf c9StoreB rfl
  exact absurd (h1.symm.trans h5) (by decide)

/-- Amended claim C9: `Repository.CreateOrder` captures the generated
identifier internally (the new order row and every inserted item row
carry it) but returns only an error value; on success that value is
`none` — the same for every store — so the identifier is not part of what
the caller receives. -/
theorem C9_create_returns_only_error (env : Env) (s t : Store) (order : Order)
    (items : List OrderItem)
    (h1 : (createOrder env s order items).2 = none)
    (h2 : (createOrder env t order items).2 = none) :
    (createOrder env s order items).2 = (createOrder env t order items).2
    ∧ (createOrder env s order items).1.orders = s.orders ++ [mkOrderRow s.nextOrderId order]
    ∧ (createOrder env s order items).1.items =
        s.items ++ mkItemRows s.nextItemId s.nextOrderId items := by
  rcases createOrder_spec env s order items with ⟨hs1, -⟩ | ⟨e, hs1, -⟩
  · rw [hs1]
    refine ⟨?_, rfl, rfl⟩
    rw [h2]
  · rw [hs1] at h1
    cases h1

/-- Witness for C9: two concrete stores with different next ids, both
successful, same returned value. -/
theorem C9_witness :
    (createOrder okEnv c9StoreA c9Order []).2 = (createOrder okEnv c9StoreB c9Order []).2 :=
  (C9_create_returns_only_error okEnv c9StoreA c9StoreB c9Order []
    (by decide) (by decide)).1

lemma mkItemRows_order_id (oid : Int) :
    ∀ (n : Int) (l : List OrderItem), ∀ row ∈ mkItemRows n oid l, row.order_id = oid := by
  intro n l
  induction l generalizing n with
  | nil => intro row hrow; cases hrow
  | cons it rest ih =>
    intro row hrow
    rcases List.mem_cons.mp hrow with rfl | hrow2
    · rfl
    · exact ih (n + 1) row hrow2

/-- Claim C10: every item row persisted by a successful CreateOrder
references the identifier generated for that call.  The service copies
only product name, quantity and price from each input item (caller ids
are zeroed); the repository appends item rows that all carry the captured
generated id `s.nextOrderId`; hence every newly visible item row
references this run's order, never a pre-existing or foreign one. -/
theorem C10_item_order_correspondence (input : CreateOrderInput) (order : Order)
    (its : List OrderItem) (env : Env) (s : Store)
    (h : serviceCreateOrder input = Except.ok (order, its))
    (hsucc : (serviceCreateOrderFull env s input).2 = none) :
    its = input.Items.map cleanInputItem
    ∧ (∀ v ∈ its, v.ID = 0 ∧ v.OrderID = 0)
    ∧ (serviceCreateOrderFull env s input).1.orders =
        s.orders ++ [mkOrderRow s.nextOrderId order]
    ∧ (serviceCreateOrderFull env s input).1.items =
        s.items ++ mkItemRows s.nextItemId s.nextOrderId its
    ∧ (∀ row ∈ mkItemRows s.nextItemId s.nextOrderId its, row.order_id = s.nextOrderId)
    ∧ (∀ row ∈ (serviceCreateOrderFull env s input).1.items,
        row ∉ s.items → row.order_id = s.nextOrderId) := by
  obtain ⟨-, hi, -, -, -⟩ := serviceCreateOrder_ok input order its h
  have hfull : serviceCreateOrderFull env s input = createOrder env s order its := by
    unfold serviceCreateOrderFull
    rw [h]
  rw [hfull] at hsucc ⊢
  rcases createOrder_spec env s order its with ⟨h1, -⟩ | ⟨e, h1, -⟩
  · rw [h1]
    refine ⟨hi, ?_, rfl, rfl, mkItemRows_order_id s.nextOrderId s.nextItemId its, ?_⟩
    · intro v hv
      rw [hi] at hv
      obtain ⟨v0, -, rfl⟩ := List.mem_map.mp hv
      exact ⟨rfl, rfl⟩
    · intro row hrow hnot
      rcases List.mem_append.mp hrow with hmem | hmem
      · exact absurd hmem hnot
      · exact mkItemRows_order_id s.nextOrderId s.nextItemId its row hmem
  · rw [h1] at hsucc
    cases hsucc

def w10Input : CreateOrderInput :=
  { CustomerName := "Jane", TotalAmount := 0, Status := "",
    Items := [{ ID := 77, OrderID := 99, ProductName := "Gadget", Quantity := 1, Price := 3,
                CreatedAt := 0, UpdatedAt := 0 }] }

def w10Items : List OrderItem :=
  [{ ID := 0, OrderID := 0, ProductName := "Gadget", Quantity := 1, Price := 3,
     CreatedAt := 0, UpdatedAt := 0 }]

def w10Order : Order :=
  { ID := 0, CustomerName := "Jane", TotalAmount := 3, Status := "pending",
    CreatedAt := 0, UpdatedAt := 0 }

lemma w10_run : serviceCreateOrder w10Input = Except.ok (w10Order, w10Items) := by
  unfold serviceCreateOrder w10Input
  rw [if_neg (show ¬ ("Jane" = "") by decide)]
  norm_num [processItems, cleanInputItem, w10Order, w10Items, StatusPending]

lemma w10_succ : (serviceCreateOrderFull okEnv w1Store w10Input).2 = none := by
  unfold serviceCreateOrderFull
  rw [w10_run]
  rfl

/-- Witness for C10: the caller-supplied item ids 77/99 are discarded and
the persisted item rows are exactly the generated-id rows. -/
theorem C10_witness :
    w10Items = w10Input.Items.map cleanInputItem
    ∧ (serviceCreateOrderFull okEnv w1Store w10Input).1.items =
        w1Store.items ++ mkItemRows w1Store.nextItemId w1Store.nextOrderId w10Items :=
  ⟨(C10_item_order_correspondence w10Input w10Order w10Items okEnv w1Store w10_run w10_succ).1,
   (C10_item_order_correspondence w10Input w10Order w10Items okEnv w1Store
      w10_run w10_succ).2.2.2.1⟩
